import Mathlib

/-!
Verification development for the LidarViewer repository's algorithmic core:
the Level-of-Detail (LOD) decimation engine (`src/viewer/lod_system.py`) and
the profile / cross-section engine (`src/profile_line/profile_calculator.py`,
`src/profile_line/profile_viewer.py`).

Embedding conventions (used consistently below):
* Python floats are modelled as exact rationals (ℚ); "within floating
  epsilon" claims are settled as exact statements over ℚ.
* Euclidean norms (which are irrational in general) are never stored
  directly.  Wherever the code computes a norm we carry its square
  (suffix `_sq`), and wherever the code computes a quantity that is a
  rational multiple of a norm we carry the rational coefficient or the
  value scaled by the norm (documented at each definition).  Squaring is
  strictly monotone on nonnegative reals, so every comparison the code
  performs is preserved exactly.
* numpy arrays are lists (or `Fin n`-indexed functions for fixed-length
  station arrays); `None` scalars are `Option`; a NaN "no data" sentinel
  in a height series is `Option.none`.
* Python exceptions are modelled with `Except`: `ValueError` and
  `ZeroDivisionError` get their own constructors.
-/

/-- A 3D point (x, y, z) with exact rational coordinates. -/
abbrev Pt3 : Type := ℚ × ℚ × ℚ

/-- The horizontal (x, y) part of a point — the code's `point[:2]`. -/
def xy (p : Pt3) : ℚ × ℚ := (p.1, p.2.1)

/-- Squared 2D Euclidean distance between two (x, y) pairs. -/
def dist2_sq (a b : ℚ × ℚ) : ℚ := (a.1 - b.1) ^ 2 + (a.2 - b.2) ^ 2

/-- Squared 3D Euclidean distance between two points. -/
def dist3_sq (a b : Pt3) : ℚ :=
  (a.1 - b.1) ^ 2 + (a.2.1 - b.2.1) ^ 2 + (a.2.2 - b.2.2) ^ 2

/-- Predicate `sqLeB dsq t` decides "sqrt dsq ≤ t" exactly, given the square `dsq` of a
nonnegative distance: it holds iff `t` is nonnegative and `dsq ≤ t ^ 2`.
This is how every `distance <= tolerance` comparison of the code is embedded
(faithful also for negative tolerances, where the comparison is always false). -/
def sqLeB (dsq t : ℚ) : Bool := decide (0 ≤ t) && decide (dsq ≤ t ^ 2)

/-- Minimum of a list of rationals (0 for the empty list, which no caller
relies on) — the code's `np.min` / nearest-neighbour distance. -/
def listMinD : List ℚ → ℚ
  | [] => 0
  | x :: xs => xs.foldl min x

/-- Maximum of a list of rationals (0 for the empty list). -/
def listMaxD : List ℚ → ℚ
  | [] => 0
  | x :: xs => xs.foldl max x

/-- Evaluates `start + t * (end - start)`, the code's line parametrisation. -/
def lerp (s e : Pt3) (t : ℚ) : Pt3 :=
  (s.1 + t * (e.1 - s.1), s.2.1 + t * (e.2.1 - s.2.1), s.2.2 + t * (e.2.2 - s.2.2))

/-- Model of `np.linspace(0, 1, num)`: the empty list for `num = 0`, `[0]` for
`num = 1`, and `i / (num - 1)` for `i < num` otherwise. -/
def linspace01 (num : ℕ) : List ℚ :=
  if num = 1 then [0]
  else (List.range num).map (fun i : ℕ => (i : ℚ) / ((num : ℚ) - 1))

/-- Embedding of `ProfileCalculator.interpolate_line_points` and `ProfileViewer._interpolate_line_points`:
evenly spaced sample points along the segment. -/
def interpolate_line_points (s e : Pt3) (num : ℕ) : List Pt3 :=
  (linspace01 num).map (lerp s e)

/-! ## LOD system (`src/viewer/lod_system.py`)

`LODSystem.__init__` fixes `distance_thresholds = {far: 5.0, medium: 2.0,
near: 1.0, close: 0.5}`, `decimation_factors = {far: 20, medium: 5, near: 2,
close: 1}` and `size_thresholds['small'] = 50000`; the claims are about this
default configuration.  The mutable `enabled` flag is passed explicitly.
The `processing_time` entry of the returned info dict (wall-clock time) is
not modelled. -/

/-- The default `decimation_factors` dict as a partial map; `none` models a
key absent from the dict. -/
def decimation_factors : String → Option ℕ := fun s =>
  if s = "far" then some 20
  else if s = "medium" then some 5
  else if s = "near" then some 2
  else if s = "close" then some 1
  else none

/-- Model of `np.arange(0, n, s)`: the multiples of `s` below `n`, i.e. `i * s` for
`i < ⌈n / s⌉` (and `⌈n / s⌉ = (n + s - 1) / s` in natural division). -/
def arange (n s : ℕ) : List ℕ := (List.range ((n + s - 1) / s)).map (· * s)

/-- Fancy-indexing `l[idxs]`: gather the entries of `l` at the given indices.
Out-of-range indices are dropped in this helper; numpy fancy indexing would
raise IndexError instead, so `apply_lod` below guards each gather with the
embedded try/except and every other caller supplies in-range indices. -/
def gather {α : Type} (l : List α) (idxs : List ℕ) : List α :=
  idxs.filterMap (fun i => l[i]?)

/-- The `lod_info` dict returned by `apply_lod` (wall-clock
`processing_time` omitted).  On the disabled/empty early exit the source
dict carries only the first three keys; the remaining fields then hold the
values they would trivially have (no decimation). -/
structure LODInfo where
  level : String
  decimation : ℕ
  original_count : ℕ
  final_count : ℕ
  reduction_percent : ℚ
  deriving DecidableEq, Repr

/-- Embedding of `LODSystem.apply_lod`: systematic stride decimation of a point array and
its optional parallel scalar array.  The decimation runs inside a
try/except: the decimated indices are all < len(points), so
`points[decimated_indices]` cannot raise, but `scalars[decimated_indices]`
raises IndexError when the scalar array is shorter than some index, and the
except branch then returns the original data with a `'error'`-level info and
`reduction_percent` 0.0 (the info's error message string is not modelled). -/
def apply_lod (enabled : Bool) (points : List Pt3) (scalars : Option (List ℚ))
    (lod_level : String) : List Pt3 × Option (List ℚ) × LODInfo :=
  if ¬enabled ∨ points = [] then
    (points, scalars, ⟨"close", 1, points.length, points.length, 0⟩)
  else
    let n := points.length
    let factor := (decimation_factors lod_level).getD 1
    if factor ≤ 1 then
      (points, scalars, ⟨lod_level, 1, n, n, 0⟩)
    else
      let idxs := arange n factor
      if scalars.all (fun a => idxs.all (fun i => decide (i < a.length))) then
        let dp := gather points idxs
        let ds := scalars.map (fun a => gather a idxs)
        let fc := dp.length
        (dp, ds, ⟨lod_level, factor, n, fc, (((n : ℚ) - fc) / n) * 100⟩)
      else
        (points, scalars, ⟨"error", 1, n, n, 0⟩)

/-- Squared bounding-box diagonal of a point list: the square of
`np.linalg.norm(np.max(points, 0) - np.min(points, 0))` (0 for the empty
list, which `calculate_scene_size` never reaches). -/
def bbox_diag_sq (points : List Pt3) : ℚ :=
  let xs := points.map (fun p => p.1)
  let ys := points.map (fun p => p.2.1)
  let zs := points.map (fun p => p.2.2)
  (listMaxD xs - listMinD xs) ^ 2 + (listMaxD ys - listMinD ys) ^ 2 +
    (listMaxD zs - listMinD zs) ^ 2

/-- Embedding of `LODSystem.calculate_scene_size`, carried as a square: the code returns
`1.0` on an empty input and `max(‖max_corner − min_corner‖, 1.0)` otherwise,
so its square is `1` and `max (bbox_diag_sq points) 1` respectively.  (The
`except` fallback of the source cannot fire in exact arithmetic.) -/
def calculate_scene_size_sq (points : List Pt3) : ℚ :=
  if points = [] then 1 else max (bbox_diag_sq points) 1

/-- Embedding of `LODSystem.determine_lod_level`.  The viewer-derived camera distance and
the scene size (the real-valued outputs of `get_camera_distance` and
`calculate_scene_size`) enter only as two scalars, modelled as exact
rationals; the point array enters only through its length, passed as
`point_count`.  A `force_level` of `none` or `some ""` is falsy in Python's
`if force_level:`, hence ignored. -/
def determine_lod_level (enabled : Bool) (point_count : ℕ)
    (camera_distance scene_size : ℚ) (force_level : Option String) : String :=
  if ¬enabled then "close"
  else if force_level.getD "" ≠ "" then force_level.getD ""
  else if point_count < 50000 then "close"
  else
    let rd := if scene_size > 0 then camera_distance / scene_size else 1
    if rd > 5 then "far"
    else if rd > 2 then "medium"
    else if rd > 1 then "near"
    else "close"

/-- Stated from the spec's words, for comparison with the code: "the level
whose distance_threshold is the largest value ≤ relative_distance, in the
order Far(5.0) > Medium(2.0) > Near(1.0) > Close(0.5, implicit default)". -/
def lod_level_spec_rule (rd : ℚ) : String :=
  if 5 ≤ rd then "far"
  else if 2 ≤ rd then "medium"
  else if 1 ≤ rd then "near"
  else "close"

/-! ## Profile calculator (`src/profile_line/profile_calculator.py`) -/

/-- Python exception kinds reachable in the embedded code paths. -/
inductive PyError : Type
  | valueError : PyError
  | zeroDivisionError : PyError
  deriving DecidableEq, Repr

/-- Embedding of `ProfileCalculator.point_to_line_distance_2d`, carried as a square.
The code clips the scalar projection `proj_length = ⟨pv, lv/L⟩` to
`[0, L]` and returns the 2D distance from the point to
`line_start + proj_length * (lv/L)`.  With the normalised parameter
`t = proj_length / L = clip(⟨pv, lv⟩ / L², 0, 1)` that projection point is
`line_start + t * lv`, which is rational; the returned distance squared is
`‖pv − t·lv‖²`.  A zero-length line returns `‖pv‖` (here its square). -/
def point_to_line_distance_2d_sq (point ls le2 : Pt3) : ℚ :=
  let lvx := le2.1 - ls.1
  let lvy := le2.2.1 - ls.2.1
  let pvx := point.1 - ls.1
  let pvy := point.2.1 - ls.2.1
  let lenSq := lvx ^ 2 + lvy ^ 2
  if lenSq = 0 then pvx ^ 2 + pvy ^ 2
  else
    let t := max 0 (min ((pvx * lvx + pvy * lvy) / lenSq) 1)
    (pvx - t * lvx) ^ 2 + (pvy - t * lvy) ^ 2

/-- Model of `np.min(heights)` wrapped in the "no data" sentinel (`calculate_height_statistics`
returns NaN for an empty neighbour set). -/
def stat_min (hs : List ℚ) : Option ℚ := if hs = [] then none else some (listMinD hs)

/-- Model of `np.max(heights)` with the "no data" sentinel. -/
def stat_max (hs : List ℚ) : Option ℚ := if hs = [] then none else some (listMaxD hs)

/-- Model of `np.mean(heights)` with the "no data" sentinel. -/
def stat_mean (hs : List ℚ) : Option ℚ :=
  if hs = [] then none else some (hs.sum / hs.length)

/-- Model of `np.std(heights) if len > 1 else 0.0`, carried as the square (population
variance), with the "no data" sentinel for the empty set. -/
def stat_var (hs : List ℚ) : Option ℚ :=
  if hs = [] then none
  else if hs.length = 1 then some 0
  else some (((hs.map (fun h => (h - hs.sum / hs.length) ^ 2)).sum) / hs.length)

/-- The `(distance, value)` pairs of the stations that have data, in station
order — the code's `(valid_distances, valid_values)` arrays. -/
def validPairs (n : ℕ) (dists : Fin n → ℚ) (values : Fin n → Option ℚ) :
    List (ℚ × ℚ) :=
  (List.finRange n).filterMap (fun i => (values i).map (fun v => (dists i, v)))

/-- The value `np.interp(x, xp, fp)` computes for `x` within the range of the
increasing abscissae `xp` (zipped here with `fp` into pairs): linear
interpolation on the first segment whose right end is ≥ x.  Callers only use
it for `xp.head ≤ x ≤ xp.last`; outside that range `np.interp` would return
the `left`/`right` fill values, which the caller supplies as NaN and which
the surrounding mask in `interpolate_missing_data` re-creates exactly. -/
def npInterpVal (x : ℚ) : List (ℚ × ℚ) → ℚ
  | [] => 0
  | [(_, y1)] => y1
  | (x1, y1) :: (x2, y2) :: rest =>
    if x ≤ x2 then y1 + (y2 - y1) * (x - x1) / (x2 - x1)
    else npInterpVal x ((x2, y2) :: rest)

/-- The set of station indices that have data (`valid_mask` as an index set). -/
def valid_idx (n : ℕ) (values : Fin n → Option ℚ) : Finset (Fin n) :=
  Finset.univ.filter (fun i => (values i).isSome = true)

/-- One series pass of `ProfileCalculator.interpolate_missing_data`: with
fewer than 2 valid stations the series is returned unchanged; otherwise a
station keeps its value if it has one, gains the `np.interp` value if it is
"no data" and its distance lies within `[valid_distances[0],
valid_distances[-1]]` (the distances at the first and last valid station in
array order), and stays "no data" outside that range. -/
def interpolate_missing_series (n : ℕ) (dists : Fin n → ℚ)
    (values : Fin n → Option ℚ) : Fin n → Option ℚ :=
  dite ((valid_idx n values).card < 2)
    (fun _ => values)
    (fun h => fun j =>
      match values j with
      | some v => some v
      | none =>
        have hne : (valid_idx n values).Nonempty := Finset.card_pos.mp (by omega)
        if dists ((valid_idx n values).min' hne) ≤ dists j ∧
            dists j ≤ dists ((valid_idx n values).max' hne) then
          some (npInterpVal (dists j) (validPairs n dists values))
        else none)

/-- The profile dict built by `calculate_profile` (summary statistics and the
echoed line endpoints are not consumed by any claim and are omitted).
`distances` is stored in units of the line length `‖end − start‖`: the
code's `distances[i]` equals `distances i * ‖end − start‖`.  Height series
carry `none` for the NaN sentinel; `std_heights` carries variances (squares
of the code's standard deviations). -/
structure ProfileData where
  n : ℕ
  distances : Fin n → ℚ
  min_heights : Fin n → Option ℚ
  max_heights : Fin n → Option ℚ
  mean_heights : Fin n → Option ℚ
  std_heights : Fin n → Option ℚ
  point_counts : Fin n → ℕ

/-- Embedding of `ProfileCalculator.calculate_profile`.  Validation raises `ValueError`
for an empty point array or identical endpoints (the `None`-argument checks
have no counterpart for total inputs).  `np.linspace` raises `ValueError`
for a negative sample count; for `num_samples = 1` the loop body's
`i / (num_samples - 1)` raises `ZeroDivisionError` on the first station.
Otherwise, station `i` sits at parameter `t = i / (num_samples - 1)`
(`interpolate_line_points` at index `i`), its neighbours are the points
whose horizontal distance to it is ≤ tolerance (`query_ball_point`,
inclusive), and the min/max/mean series get the `interpolate_missing_data`
post-pass. -/
def calculate_profile (points : List Pt3) (sp ep : Pt3) (num_samples : ℤ)
    (tol : ℚ) : Except PyError ProfileData :=
  if points = [] then .error .valueError
  else if sp = ep then .error .valueError
  else if num_samples < 0 then .error .valueError
  else if num_samples = 1 then .error .zeroDivisionError
  else
    let n := num_samples.toNat
    let dists : Fin n → ℚ := fun i => (i : ℚ) / ((n : ℚ) - 1)
    let nbrs : Fin n → List ℚ := fun i =>
      (points.filter (fun p =>
        sqLeB (dist2_sq (xy p) (xy (lerp sp ep ((i : ℚ) / ((n : ℚ) - 1))))) tol)).map
        (fun p => p.2.2)
    .ok
      { n := n
        distances := dists
        min_heights := interpolate_missing_series n dists (fun i => stat_min (nbrs i))
        max_heights := interpolate_missing_series n dists (fun i => stat_max (nbrs i))
        mean_heights := interpolate_missing_series n dists (fun i => stat_mean (nbrs i))
        std_heights := fun i => stat_var (nbrs i)
        point_counts := fun i => (nbrs i).length }

/-- Number of samples of a profile result (0 on an error result). -/
def profile_n (r : Except PyError ProfileData) : ℕ :=
  match r with
  | .ok pd => pd.n
  | .error _ => 0

/-- Distance (in units of the line length) at station `i` of a profile
result; 0 out of range or on an error result. -/
def profile_dist (r : Except PyError ProfileData) (i : ℕ) : ℚ :=
  match r with
  | .ok pd => if h : i < pd.n then pd.distances ⟨i, h⟩ else 0
  | .error _ => 0

/-! ## Cross-section extraction -/

/-- The 3D dot product `⟨p − line_start, line_end − line_start⟩` — the
code's `np.dot(point - line_start, line_unitvec)` scaled by the line
length. -/
def dot3_from_start (p sp ep : Pt3) : ℚ :=
  (p.1 - sp.1) * (ep.1 - sp.1) + (p.2.1 - sp.2.1) * (ep.2.1 - sp.2.1) +
    (p.2.2 - sp.2.2) * (ep.2.2 - sp.2.2)

/-- The dict returned by `ProfileCalculator.get_cross_section_points`.
`line_distances_scaled` stores the code's `line_distances` multiplied by the
3D line length `‖end − start‖` (so the code's per-point value
`⟨p − start, (end − start)/‖end − start‖⟩` is stored as the plain dot
product `⟨p − start, end − start⟩`); `perp_distances_sq` stores the squares
of the code's perpendicular distances; `total_length_sq` the square of the
line length.  The two early exits return empty arrays (and no length
fields, modelled as 0). -/
structure CrossSectionData where
  points : List Pt3
  line_distances_scaled : List ℚ
  perp_distances_sq : List ℚ
  total_length_sq : ℚ
  deriving DecidableEq, Repr

/-- Embedding of `ProfileCalculator.get_cross_section_points`: keep the points whose 2D
perpendicular distance to the segment is ≤ tolerance and report, per kept
point, the (unclipped) scalar projection onto the 3D line direction and the
perpendicular distance. -/
def get_cross_section_points (points : List Pt3) (sp ep : Pt3) (tol : ℚ) :
    CrossSectionData :=
  if points = [] then ⟨[], [], [], 0⟩
  else
    let perp := points.map (fun p => point_to_line_distance_2d_sq p sp ep)
    let included := (points.zip perp).filter (fun pr => sqLeB pr.2 tol)
    let csp := included.map Prod.fst
    let perpIn := included.map Prod.snd
    if csp = [] then ⟨[], [], [], 0⟩
    else
      let lenSq := dist3_sq sp ep
      -- line_unitvec is (end − start)/L for L > 0 and the zero vector for
      -- L = 0; the scaled dot product is then ⟨p − start, end − start⟩ and 0.
      let ld := csp.map (fun p =>
        if lenSq = 0 then 0 else dot3_from_start p sp ep)
      ⟨csp, ld, perpIn, lenSq⟩

/-- Stated from the spec's words, for comparison with the code: the scalar
projection of `p − start` onto the unit line direction "clamped to the
interval [0, length]", in the same length-scaled representation as
`line_distances_scaled` (clamping to `[0, L]` and scaling by `L` is
clamping the dot product to `[0, L²]`). -/
def clamped_projection_scaled (p sp ep : Pt3) : ℚ :=
  max 0 (min (dot3_from_start p sp ep) (dist3_sq sp ep))

/-- The number of dense line samples of
`ProfileViewer._extract_cross_section_points`:
`max(100, int(10 * ‖end − start‖))`.  Since `⌊sqrt x⌋ = Nat.sqrt ⌊x⌋` for
rational `x ≥ 0`, the integer part of `10·‖e − s‖ = sqrt(100·dist3_sq)` is
`Nat.sqrt ⌊100 * dist3_sq⌋`. -/
def num_line_samples (sp ep : Pt3) : ℕ :=
  max 100 (Nat.sqrt (Int.toNat ⌊(100 : ℚ) * dist3_sq sp ep⌋))

/-- Squared distance from a 2D point to its nearest neighbour among the
(sample) points — `line_tree.query(point[:2], k=1)` squared. -/
def nearest_sample_dist_sq (p : ℚ × ℚ) (samples : List (ℚ × ℚ)) : ℚ :=
  listMinD (samples.map (fun q => dist2_sq p q))

/-- Embedding of `ProfileViewer._extract_cross_section_points`: keep the points whose 2D
distance to the nearest of the dense line samples is ≤ tolerance.  (The
source collects the original indices of the passing points into a Python
set and gathers them, which de-duplicates exact coordinate duplicates and
loses order; the claims consume only membership, so the embedding returns
the passing points in array order.) -/
def extract_cross_section_points (points : List Pt3) (sp ep : Pt3) (tol : ℚ) :
    List Pt3 :=
  let samples := interpolate_line_points sp ep (num_line_samples sp ep)
  points.filter (fun p =>
    sqLeB (nearest_sample_dist_sq (xy p) (samples.map xy)) tol)

/-! ## Helper lemmas -/

theorem gather_nil {α : Type} (idxs : List ℕ) : gather ([] : List α) idxs = [] := by
  induction idxs with
  | nil => rfl
  | cons a as ih => simp [gather, List.filterMap_cons] at ih ⊢

theorem gather_range_self {α : Type} (l : List α) :
    gather l (List.range l.length) = l := by
  induction l with
  | nil => rfl
  | cons a as ih =>
    rw [List.length_cons, List.range_succ_eq_map]
    simp only [gather, List.filterMap_cons, List.getElem?_cons_zero, List.filterMap_map]
    have h : (fun i => (a :: as)[i]?) ∘ Nat.succ = fun i => as[i]? := by
      funext i; simp
    rw [h]
    exact congrArg (a :: ·) ih

theorem gather_length_congr {α β : Type} (l1 : List α) (l2 : List β) (idxs : List ℕ)
    (h : l1.length = l2.length) :
    (gather l1 idxs).length = (gather l2 idxs).length := by
  induction idxs with
  | nil => rfl
  | cons a as ih =>
    simp only [gather, List.filterMap_cons] at ih ⊢
    by_cases ha : a < l1.length
    · rw [List.getElem?_eq_getElem ha, List.getElem?_eq_getElem (h ▸ ha)]
      simpa using ih
    · rw [List.getElem?_eq_none (by omega), List.getElem?_eq_none (by omega)]
      exact ih

theorem gather_length_of_lt {α : Type} (l : List α) (idxs : List ℕ)
    (h : ∀ i ∈ idxs, i < l.length) :
    (gather l idxs).length = idxs.length := by
  induction idxs with
  | nil => rfl
  | cons a as ih =>
    have ha : a < l.length := h a (List.mem_cons_self a as)
    have hc : gather l (a :: as) = l[a] :: gather l as := by
      simp [gather, List.filterMap_cons, List.getElem?_eq_getElem ha]
    have ht := ih (fun i hi => h i (List.mem_cons_of_mem a hi))
    rw [hc, List.length_cons, List.length_cons, ht]

theorem arange_length (n s : ℕ) : (arange n s).length = (n + s - 1) / s := by
  simp [arange]

theorem arange_one (n : ℕ) : arange n 1 = List.range n := by
  simp [arange]

theorem arange_mem_lt {n s m : ℕ} (hs : 1 ≤ s) (hm : m ∈ arange n s) : m < n := by
  unfold arange at hm
  simp only [List.mem_map, List.mem_range] at hm
  obtain ⟨i, hi, rfl⟩ := hm
  rcases Nat.eq_zero_or_pos n with hn | hn
  · subst hn
    have h0 : (0 + s - 1) / s = 0 := Nat.div_eq_of_lt (by omega)
    omega
  · have h1 : n + s - 1 = (n - 1) + s := by omega
    rw [h1, Nat.add_div_right _ (by omega)] at hi
    have h2 : i ≤ (n - 1) / s := by omega
    have h3 : i * s ≤ (n - 1) / s * s := Nat.mul_le_mul_right s h2
    have h4 : (n - 1) / s * s ≤ n - 1 := Nat.div_mul_le_self _ _
    omega

theorem decimation_factors_getD_cases (level : String) :
    (decimation_factors level).getD 1 = 20 ∨ (decimation_factors level).getD 1 = 5 ∨
      (decimation_factors level).getD 1 = 2 ∨ (decimation_factors level).getD 1 = 1 := by
  unfold decimation_factors
  split_ifs <;> simp

theorem ceil_div_antitone {n s1 s2 : ℕ} (h1 : 1 ≤ s1) (h12 : s1 ≤ s2) :
    (n + s2 - 1) / s2 ≤ (n + s1 - 1) / s1 := by
  rcases Nat.eq_zero_or_pos n with hn | hn
  · subst hn
    have e2 : (0 + s2 - 1) / s2 = 0 := Nat.div_eq_of_lt (by omega)
    rw [e2]
    exact Nat.zero_le _
  · have e1 : n + s1 - 1 = (n - 1) + s1 := by omega
    have e2 : n + s2 - 1 = (n - 1) + s2 := by omega
    rw [e1, e2, Nat.add_div_right _ (by omega), Nat.add_div_right _ (by omega)]
    have h5 : (n - 1) / s2 ≤ (n - 1) / s1 := Nat.div_le_div_left h12 (by omega)
    omega

theorem ceil_div_le_self {n s : ℕ} (hs : 1 ≤ s) : (n + s - 1) / s ≤ n := by
  rcases Nat.eq_zero_or_pos n with hn | hn
  · subst hn
    have : (0 + s - 1) / s = 0 := Nat.div_eq_of_lt (by omega)
    omega
  · have e1 : n + s - 1 = (n - 1) + s := by omega
    rw [e1, Nat.add_div_right _ (by omega)]
    have := Nat.div_le_self (n - 1) s
    omega

theorem reduction_mono_q {n c1 c2 : ℕ} (h21 : c2 ≤ c1) (hn : 1 ≤ n) :
    ((n : ℚ) - c1) / n * 100 ≤ ((n : ℚ) - c2) / n * 100 := by
  have hn' : (0 : ℚ) < n := by exact_mod_cast hn
  have hc : (c2 : ℚ) ≤ c1 := by exact_mod_cast h21
  have h : ((n : ℚ) - c1) / n ≤ ((n : ℚ) - c2) / n :=
    (div_le_div_iff_of_pos_right hn').mpr (by linarith)
  linarith

theorem reduction_nonneg_q {n c : ℕ} (hc : c ≤ n) (hn : 1 ≤ n) :
    (0 : ℚ) ≤ ((n : ℚ) - c) / n * 100 := by
  have hn' : (0 : ℚ) < n := by exact_mod_cast hn
  have hcq : (c : ℚ) ≤ n := by exact_mod_cast hc
  have h : (0 : ℚ) ≤ ((n : ℚ) - c) / n := div_nonneg (by linarith) hn'.le
  linarith

theorem le_listMinD {c : ℚ} {l : List ℚ} (hne : l ≠ []) (h : ∀ x ∈ l, c ≤ x) :
    c ≤ listMinD l := by
  match l with
  | [] => exact absurd rfl hne
  | x :: xs =>
    unfold listMinD
    clear hne
    induction xs generalizing x with
    | nil => exact h x (by simp)
    | cons y ys ih =>
      simp only [List.foldl_cons]
      apply ih (min x y)
      intro z hz
      rcases List.mem_cons.mp hz with hz | hz
      · subst hz
        exact le_min (h x (by simp)) (h y (by simp))
      · exact h z (by simp [hz])

theorem sqLeB_mono {a b t : ℚ} (hba : b ≤ a) (h : sqLeB a t = true) :
    sqLeB b t = true := by
  unfold sqLeB at h ⊢
  simp only [Bool.and_eq_true, decide_eq_true_eq] at h ⊢
  exact ⟨h.1, le_trans hba h.2⟩

theorem linspace01_length (num : ℕ) : (linspace01 num).length = num := by
  unfold linspace01
  split_ifs with h1
  · simp [h1]
  · simp

theorem linspace01_ne_nil {num : ℕ} (hnum : 1 ≤ num) : linspace01 num ≠ [] := by
  intro hcon
  have h := linspace01_length num
  rw [hcon] at h
  simp at h
  omega

theorem mem_interpolate_line_points {q sp ep : Pt3} {num : ℕ}
    (hq : q ∈ interpolate_line_points sp ep num) :
    ∃ t : ℚ, 0 ≤ t ∧ t ≤ 1 ∧ q = lerp sp ep t := by
  unfold interpolate_line_points linspace01 at hq
  split_ifs at hq with h1
  · simp only [List.map_cons, List.map_nil, List.mem_singleton] at hq
    exact ⟨0, le_refl 0, zero_le_one, hq⟩
  · rw [List.map_map] at hq
    obtain ⟨i, hi, hq⟩ := List.mem_map.mp hq
    rw [List.mem_range] at hi
    rw [Function.comp_apply] at hq
    have hnum2 : 2 ≤ num := by omega
    have hden : (0 : ℚ) < (num : ℚ) - 1 := by
      have h2 : (2 : ℚ) ≤ (num : ℚ) := by exact_mod_cast hnum2
      linarith
    refine ⟨(i : ℚ) / ((num : ℚ) - 1), ?_, ?_, hq.symm⟩
    · exact div_nonneg (Nat.cast_nonneg i) hden.le
    · rw [div_le_one hden]
      have hi1 : (i : ℚ) + 1 ≤ (num : ℚ) := by exact_mod_cast hi
      linarith

/-- Abstract form of the clamped-projection optimality: the quadratic
`A - 2uD + u²L2` over `u ∈ [0,1]` is minimised at `u = clip(D/L2, 0, 1)`. -/
theorem clamp_quadratic_min (A D L2 ts t : ℚ) (hL2 : 0 < L2) (h0 : 0 ≤ t)
    (h1 : t ≤ 1) (hts : ts = max 0 (min (D / L2) 1)) :
    A - 2 * ts * D + ts ^ 2 * L2 ≤ A - 2 * t * D + t ^ 2 * L2 := by
  have hne : L2 ≠ 0 := ne_of_gt hL2
  rcases le_total (D / L2) 0 with hd0 | hd0
  · have hts0 : ts = 0 := by
      rw [hts, max_eq_left (le_trans (min_le_left _ _) hd0)]
    have hD : D ≤ 0 := by
      have hm := mul_nonpos_of_nonpos_of_nonneg hd0 hL2.le
      rwa [div_mul_cancel₀ _ hne] at hm
    have a1 : 0 ≤ t * (-D) := mul_nonneg h0 (neg_nonneg.mpr hD)
    have a2 : 0 ≤ t ^ 2 * L2 := mul_nonneg (sq_nonneg t) hL2.le
    rw [hts0]
    nlinarith [a1, a2]
  · rcases le_total 1 (D / L2) with hd1 | hd1
    · have hts1 : ts = 1 := by
        rw [hts, min_eq_right hd1, max_eq_right zero_le_one]
      have hDge : L2 ≤ D := (one_le_div hL2).mp hd1
      have k1 : 0 ≤ 1 - t := by linarith
      have k2 : 0 ≤ 2 * D - (1 + t) * L2 := by nlinarith
      rw [hts1]
      nlinarith [mul_nonneg k1 k2]
    · have htsm : ts = D / L2 := by
        rw [hts, min_eq_left hd1, max_eq_right hd0]
      have e1 : (D / L2) * D = D ^ 2 / L2 := by
        field_simp
        ring
      have e2 : (D / L2) ^ 2 * L2 = D ^ 2 / L2 := by
        field_simp
        ring
      have idq : t ^ 2 * L2 - 2 * t * D + D ^ 2 / L2 = (t * L2 - D) ^ 2 / L2 := by
        field_simp
        ring
      have h3 : 0 ≤ (t * L2 - D) ^ 2 / L2 := div_nonneg (sq_nonneg _) hL2.le
      rw [htsm, mul_assoc, e1, e2]
      linarith [idq ▸ h3]

/-- The clamped projection parameter minimises the squared 2D distance from
the point to the segment: the code's `point_to_line_distance_2d` value is
≤ the distance to any point `start + t·(end−start)` of the segment. -/
theorem point_to_line_distance_2d_sq_le (p sp ep : Pt3) (t : ℚ)
    (h0 : 0 ≤ t) (h1 : t ≤ 1) :
    point_to_line_distance_2d_sq p sp ep ≤ dist2_sq (xy p) (xy (lerp sp ep t)) := by
  unfold point_to_line_distance_2d_sq dist2_sq xy lerp
  simp only
  have hrw : (p.1 - (sp.1 + t * (ep.1 - sp.1))) ^ 2 +
      (p.2.1 - (sp.2.1 + t * (ep.2.1 - sp.2.1))) ^ 2 =
      ((p.1 - sp.1) - t * (ep.1 - sp.1)) ^ 2 +
        ((p.2.1 - sp.2.1) - t * (ep.2.1 - sp.2.1)) ^ 2 := by
    ring
  rw [hrw]
  by_cases hz : (ep.1 - sp.1) ^ 2 + (ep.2.1 - sp.2.1) ^ 2 = 0
  · rw [if_pos hz]
    have hx : ep.1 - sp.1 = 0 := by
      nlinarith [sq_nonneg (ep.1 - sp.1), sq_nonneg (ep.2.1 - sp.2.1)]
    have hy : ep.2.1 - sp.2.1 = 0 := by
      nlinarith [sq_nonneg (ep.1 - sp.1), sq_nonneg (ep.2.1 - sp.2.1)]
    rw [hx, hy]
    ring_nf
    exact le_refl _
  · rw [if_neg hz]
    have hL2pos : 0 < (ep.1 - sp.1) ^ 2 + (ep.2.1 - sp.2.1) ^ 2 :=
      lt_of_le_of_ne (by positivity) (Ne.symm hz)
    have key : ∀ u : ℚ,
        ((p.1 - sp.1) - u * (ep.1 - sp.1)) ^ 2 +
          ((p.2.1 - sp.2.1) - u * (ep.2.1 - sp.2.1)) ^ 2 =
        ((p.1 - sp.1) ^ 2 + (p.2.1 - sp.2.1) ^ 2) -
          2 * u * ((p.1 - sp.1) * (ep.1 - sp.1) + (p.2.1 - sp.2.1) * (ep.2.1 - sp.2.1)) +
          u ^ 2 * ((ep.1 - sp.1) ^ 2 + (ep.2.1 - sp.2.1) ^ 2) := by
      intro u
      ring
    rw [key, key]
    exact clamp_quadratic_min _ _ _ _ t hL2pos h0 h1 rfl

/-- A scalar column aligned with the point array passes the
IndexError guard for any in-range index list. -/
theorem scalars_all_of_aligned {sc : Option (List ℚ)} {idxs : List ℕ} {n : ℕ}
    (hal : ∀ a ∈ sc, a.length = n) (hlt : ∀ i ∈ idxs, i < n) :
    sc.all (fun a => idxs.all (fun i => decide (i < a.length))) = true := by
  cases sc with
  | none => rfl
  | some a =>
    have ha : a.length = n := hal a rfl
    simp only [Option.all, List.all_eq_true, decide_eq_true_eq]
    intro i hi
    rw [ha]
    exact hlt i hi

/-- On the enabled, nonempty path with a stride ≥ 2 and a scalar gather that
does not raise, `apply_lod` gathers both arrays at `np.arange(0, n, stride)`
and reports the resulting reduction. -/
theorem apply_lod_stride_eq (P : List Pt3) (sc : Option (List ℚ)) (level : String)
    (hP : P ≠ []) (f : ℕ) (hf : (decimation_factors level).getD 1 = f) (h2 : 2 ≤ f)
    (hok : sc.all (fun a => (arange P.length f).all (fun i => decide (i < a.length)))
      = true) :
    apply_lod true P sc level =
      (gather P (arange P.length f),
       sc.map (fun a => gather a (arange P.length f)),
       ⟨level, f, P.length, (gather P (arange P.length f)).length,
        (((P.length : ℚ) - (gather P (arange P.length f)).length) / P.length) * 100⟩) := by
  unfold apply_lod
  rw [if_neg (by simp [hP]), hf, if_neg (by omega), if_pos hok]

/-- On the enabled, nonempty path with stride 1 (`close` or a level absent
from `decimation_factors`), `apply_lod` returns its inputs unchanged and
echoes the level name with reduction 0. -/
theorem apply_lod_stride_one (P : List Pt3) (sc : Option (List ℚ)) (level : String)
    (hP : P ≠ []) (hf : (decimation_factors level).getD 1 = 1) :
    apply_lod true P sc level = (P, sc, ⟨level, 1, P.length, P.length, 0⟩) := by
  unfold apply_lod
  rw [if_neg (by simp [hP]), hf, if_pos (le_refl 1)]

theorem gather_arange_length (P : List Pt3) (f : ℕ) (hf : 1 ≤ f) :
    (gather P (arange P.length f)).length = (P.length + f - 1) / f := by
  rw [gather_length_of_lt _ _ (fun i hi => arange_mem_lt hf hi), arange_length]

/-- C1 (Decimation alignment invariant): with the LOD system enabled, for
every point array and equal-length scalar column and every level name,
`apply_lod` gathers points and scalars at the identical index set
`np.arange(0, n, s)` for the level's stride `s` (stride 1 for unknown
levels), so the outputs have equal length and position `i` of both outputs
comes from the same original index. -/
theorem decimation_alignment (P : List Pt3) (A : List ℚ) (level : String)
    (hlen : A.length = P.length) :
    (apply_lod true P (some A) level).1 =
      gather P (arange P.length ((decimation_factors level).getD 1)) ∧
    (apply_lod true P (some A) level).2.1 =
      some (gather A (arange P.length ((decimation_factors level).getD 1))) ∧
    (apply_lod true P (some A) level).1.length =
      ((apply_lod true P (some A) level).2.1.getD []).length := by
  by_cases hP : P = []
  · subst hP
    have hA : A = [] := List.length_eq_zero.mp (by simpa using hlen)
    subst hA
    refine ⟨?_, ?_, ?_⟩ <;> simp [apply_lod, gather_nil]
  · by_cases hone : (decimation_factors level).getD 1 = 1
    · rw [apply_lod_stride_one P (some A) level hP hone, hone, arange_one]
      refine ⟨?_, ?_, ?_⟩
      · exact (gather_range_self P).symm
      · rw [← hlen, gather_range_self]
      · simp [hlen.symm]
    · have h2 : 2 ≤ (decimation_factors level).getD 1 := by
        rcases decimation_factors_getD_cases level with h | h | h | h <;> omega
      rw [apply_lod_stride_eq P (some A) level hP _ rfl h2
        (scalars_all_of_aligned (fun a ha => by injection ha with h; rw [← h]; exact hlen)
          (fun i hi => arange_mem_lt (by omega) hi))]
      refine ⟨rfl, rfl, ?_⟩
      simp only [Option.map_some', Option.getD_some]
      exact gather_length_congr P A _ hlen.symm

/-- Witness for C1 at a concrete input (two points, two scalars, level
`near` with stride 2). -/
theorem decimation_alignment_witness :
    ([(1 : ℚ), 2] : List ℚ).length = ([((0 : ℚ), 0, 0), ((1 : ℚ), 0, 0)] : List Pt3).length ∧
    ((apply_lod true [((0 : ℚ), 0, 0), ((1 : ℚ), 0, 0)] (some [1, 2]) "near").1 =
      gather [((0 : ℚ), 0, 0), ((1 : ℚ), 0, 0)] (arange 2 2) ∧
    (apply_lod true [((0 : ℚ), 0, 0), ((1 : ℚ), 0, 0)] (some [1, 2]) "near").2.1 =
      some (gather [(1 : ℚ), 2] (arange 2 2)) ∧
    (apply_lod true [((0 : ℚ), 0, 0), ((1 : ℚ), 0, 0)] (some [1, 2]) "near").1.length =
      ((apply_lod true [((0 : ℚ), 0, 0), ((1 : ℚ), 0, 0)] (some [1, 2]) "near").2.1.getD []).length) :=
  ⟨rfl, decimation_alignment [((0 : ℚ), 0, 0), ((1 : ℚ), 0, 0)] [1, 2] "near" rfl⟩

/-- Demonstration of the embedded try/except: with 6 points and a 5-element
scalar column, the `medium` stride decimates at indices [0, 5] and index 5
is out of range for the scalars, so the source's IndexError fallback
returns the inputs unchanged with an `'error'`-level info and reduction
0.0. -/
theorem apply_lod_misaligned_error :
    apply_lod true
      [((0 : ℚ), 0, 0), ((1 : ℚ), 0, 0), ((2 : ℚ), 0, 0), ((3 : ℚ), 0, 0),
        ((4 : ℚ), 0, 0), ((5 : ℚ), 0, 0)]
      (some [1, 2, 3, 4, 5]) "medium" =
      ([((0 : ℚ), 0, 0), ((1 : ℚ), 0, 0), ((2 : ℚ), 0, 0), ((3 : ℚ), 0, 0),
        ((4 : ℚ), 0, 0), ((5 : ℚ), 0, 0)],
       some [1, 2, 3, 4, 5], ⟨"error", 1, 6, 6, 0⟩) := by
  rfl

/-- C9 (Decimation monotonicity): for a fixed nonempty point array with the
LOD system enabled and the scalar column (when present) aligned with the
point array — the AttributeColumn invariant of the data model —
`reduction_percent` is non-decreasing across
Close(1) → Near(2) → Medium(5) → Far(20).  Alignment matters: a scalar
column shorter than a decimated index makes the source's scalar gather
raise IndexError at that stride, and the except branch reports
`reduction_percent` 0.0 with level `'error'` (see
`apply_lod_misaligned_error`), which would break the chain. -/
theorem decimation_monotonicity (P : List Pt3) (sc : Option (List ℚ)) (hP : P ≠ [])
    (hsc : ∀ a ∈ sc, a.length = P.length) :
    (apply_lod true P sc "close").2.2.reduction_percent ≤
      (apply_lod true P sc "near").2.2.reduction_percent ∧
    (apply_lod true P sc "near").2.2.reduction_percent ≤
      (apply_lod true P sc "medium").2.2.reduction_percent ∧
    (apply_lod true P sc "medium").2.2.reduction_percent ≤
      (apply_lod true P sc "far").2.2.reduction_percent := by
  have hn : 1 ≤ P.length := List.length_pos.mpr hP
  rw [apply_lod_stride_one P sc "close" hP rfl,
    apply_lod_stride_eq P sc "near" hP 2 rfl (by omega)
      (scalars_all_of_aligned hsc (fun i hi => arange_mem_lt (by omega) hi)),
    apply_lod_stride_eq P sc "medium" hP 5 rfl (by omega)
      (scalars_all_of_aligned hsc (fun i hi => arange_mem_lt (by omega) hi)),
    apply_lod_stride_eq P sc "far" hP 20 rfl (by omega)
      (scalars_all_of_aligned hsc (fun i hi => arange_mem_lt (by omega) hi))]
  simp only [gather_arange_length P 2 (by omega), gather_arange_length P 5 (by omega),
    gather_arange_length P 20 (by omega)]
  refine ⟨?_, ?_, ?_⟩
  · exact reduction_nonneg_q (ceil_div_le_self (by omega)) hn
  · exact reduction_mono_q (ceil_div_antitone (by omega) (by omega)) hn
  · exact reduction_mono_q (ceil_div_antitone (by omega) (by omega)) hn

/-- Witness for C9 on a concrete five-point array. -/
theorem decimation_monotonicity_witness :
    (apply_lod true [((0 : ℚ), 0, 0), ((1 : ℚ), 0, 0), ((2 : ℚ), 0, 0), ((3 : ℚ), 0, 0),
        ((4 : ℚ), 0, 0)] none "close").2.2.reduction_percent ≤
      (apply_lod true [((0 : ℚ), 0, 0), ((1 : ℚ), 0, 0), ((2 : ℚ), 0, 0), ((3 : ℚ), 0, 0),
        ((4 : ℚ), 0, 0)] none "near").2.2.reduction_percent ∧
    (apply_lod true [((0 : ℚ), 0, 0), ((1 : ℚ), 0, 0), ((2 : ℚ), 0, 0), ((3 : ℚ), 0, 0),
        ((4 : ℚ), 0, 0)] none "near").2.2.reduction_percent ≤
      (apply_lod true [((0 : ℚ), 0, 0), ((1 : ℚ), 0, 0), ((2 : ℚ), 0, 0), ((3 : ℚ), 0, 0),
        ((4 : ℚ), 0, 0)] none "medium").2.2.reduction_percent ∧
    (apply_lod true [((0 : ℚ), 0, 0), ((1 : ℚ), 0, 0), ((2 : ℚ), 0, 0), ((3 : ℚ), 0, 0),
        ((4 : ℚ), 0, 0)] none "medium").2.2.reduction_percent ≤
      (apply_lod true [((0 : ℚ), 0, 0), ((1 : ℚ), 0, 0), ((2 : ℚ), 0, 0), ((3 : ℚ), 0, 0),
        ((4 : ℚ), 0, 0)] none "far").2.2.reduction_percent :=
  decimation_monotonicity _ none (by simp) (by intro a ha; cases ha)

/-- C10 (implicit): with the LOD system enabled and a nonempty point array,
an unknown level name (a key absent from `decimation_factors`) is treated as
stride 1: inputs are returned unchanged, `reduction_percent` is 0, the given
level name is echoed in the info, and no error is signalled. -/
theorem unknown_level_stride_one (P : List Pt3) (sc : Option (List ℚ)) (level : String)
    (hP : P ≠ []) (hlev : decimation_factors level = none) :
    apply_lod true P sc level = (P, sc, ⟨level, 1, P.length, P.length, 0⟩) :=
  apply_lod_stride_one P sc level hP (by rw [hlev]; rfl)

/-- Witness for C10 at the unknown level name `"bogus"`. -/
theorem unknown_level_stride_one_witness :
    apply_lod true [((0 : ℚ), 0, 0)] (some [5]) "bogus" =
      ([((0 : ℚ), 0, 0)], some [5], ⟨"bogus", 1, 1, 1, 0⟩) :=
  unknown_level_stride_one [((0 : ℚ), 0, 0)] (some [5]) "bogus" (by simp) (by decide)

/-- Counterexample to C5 as stated: at exact equality with a level's
threshold (relative_distance = 5 = the Far threshold, with ≥ 50000 points,
LOD enabled, no forced level) the code returns `medium`, not the level
(`far`) whose threshold is the largest value ≤ relative_distance. -/
theorem lod_level_selection_cex :
    determine_lod_level true 50000 5 1 none = "medium" ∧
    lod_level_spec_rule (5 / 1) = "far" ∧
    ("medium" : String) ≠ "far" := by
  refine ⟨?_, ?_, by decide⟩
  · norm_num [determine_lod_level]
  · norm_num [lod_level_spec_rule]

/-- C5 amended: with the LOD system enabled, no forced level and ≥ 50000
points, `determine_lod_level` compares `relative_distance = camera_distance
/ scene_size` against the thresholds with strict `>`, so it returns the
level whose threshold is the largest value strictly below the relative
distance (Close when there is none); at exact equality with a threshold the
next lower level is selected. -/
theorem lod_level_selection_strict (pc : ℕ) (cd ss : ℚ)
    (hpc : 50000 ≤ pc) (hss : 0 < ss) :
    (determine_lod_level true pc cd ss none = "far" ↔ 5 < cd / ss) ∧
    (determine_lod_level true pc cd ss none = "medium" ↔ (2 < cd / ss ∧ cd / ss ≤ 5)) ∧
    (determine_lod_level true pc cd ss none = "near" ↔ (1 < cd / ss ∧ cd / ss ≤ 2)) ∧
    (determine_lod_level true pc cd ss none = "close" ↔ cd / ss ≤ 1) := by
  unfold determine_lod_level
  have hnot : ¬pc < 50000 := by omega
  simp only [Bool.not_true, Option.getD_none, ne_eq, not_true_eq_false, if_false,
    if_neg hnot, if_pos hss, decide_eq_true_eq]
  split_ifs with h5 h2 h1
  · exact ⟨iff_of_true rfl h5,
      iff_of_false (by decide) (fun hc => by linarith [hc.2]),
      iff_of_false (by decide) (fun hc => by linarith [hc.2]),
      iff_of_false (by decide) (fun hc => by linarith)⟩
  · exact ⟨iff_of_false (by decide) (fun hc => h5 hc),
      iff_of_true rfl ⟨h2, not_lt.mp h5⟩,
      iff_of_false (by decide) (fun hc => by linarith [hc.2]),
      iff_of_false (by decide) (fun hc => by linarith)⟩
  · exact ⟨iff_of_false (by decide) (fun hc => h5 hc),
      iff_of_false (by decide) (fun hc => h2 hc.1),
      iff_of_true rfl ⟨h1, not_lt.mp h2⟩,
      iff_of_false (by decide) (fun hc => by linarith)⟩
  · exact ⟨iff_of_false (by decide) (fun hc => h5 hc),
      iff_of_false (by decide) (fun hc => h2 hc.1),
      iff_of_false (by decide) (fun hc => h1 hc.1),
      iff_of_true rfl (not_lt.mp h1)⟩

/-- Witness for the amended C5 at relative distance 3 (medium band). -/
theorem lod_level_selection_strict_witness :
    (determine_lod_level true 60000 3 1 none = "far" ↔ 5 < (3 : ℚ) / 1) ∧
    (determine_lod_level true 60000 3 1 none = "medium" ↔ (2 < (3 : ℚ) / 1 ∧ (3 : ℚ) / 1 ≤ 5)) ∧
    (determine_lod_level true 60000 3 1 none = "near" ↔ (1 < (3 : ℚ) / 1 ∧ (3 : ℚ) / 1 ≤ 2)) ∧
    (determine_lod_level true 60000 3 1 none = "close" ↔ (3 : ℚ) / 1 ≤ 1) :=
  lod_level_selection_strict 60000 3 1 (by omega) (by norm_num)

/-- Counterexample to C8 as stated: a nonempty array with positive
bounding-box diagonal (squared diagonal 1/4, i.e. diagonal 1/2 > 0) does not
get its diagonal returned — the code returns 1 (squared 1), because it
clamps with `max(scene_size, 1.0)`, not at 0. -/
theorem scene_size_cex :
    calculate_scene_size_sq [((0 : ℚ), 0, 0), ((1 / 2 : ℚ), 0, 0)] = 1 ∧
    0 < bbox_diag_sq [((0 : ℚ), 0, 0), ((1 / 2 : ℚ), 0, 0)] ∧
    calculate_scene_size_sq [((0 : ℚ), 0, 0), ((1 / 2 : ℚ), 0, 0)] ≠
      bbox_diag_sq [((0 : ℚ), 0, 0), ((1 / 2 : ℚ), 0, 0)] := by
  refine ⟨?_, ?_, ?_⟩ <;>
    norm_num [calculate_scene_size_sq, bbox_diag_sq, listMinD, listMaxD, min_def, max_def]

/-- C8 amended: `calculate_scene_size` returns the bounding-box diagonal
norm clamped from below at 1 (in squared form: `max (bbox_diag_sq P) 1`).
It returns 1 exactly when the array is empty or the diagonal is ≤ 1, and
returns the diagonal itself exactly when the diagonal is ≥ 1. -/
theorem scene_size_clamped (P : List Pt3) :
    (calculate_scene_size_sq P = 1 ↔ (P = [] ∨ bbox_diag_sq P ≤ 1)) ∧
    (P ≠ [] → 1 ≤ bbox_diag_sq P → calculate_scene_size_sq P = bbox_diag_sq P) := by
  unfold calculate_scene_size_sq
  by_cases hP : P = []
  · simp [hP]
  · rw [if_neg hP]
    constructor
    · constructor
      · intro h
        right
        rw [← h]
        exact le_max_left _ _
      · intro h
        rcases h with h | h
        · exact absurd h hP
        · exact max_eq_right h
    · intro _ h
      exact max_eq_left h

/-- Witness for the amended C8 on a concrete array with diagonal 2 ≥ 1. -/
theorem scene_size_clamped_witness :
    calculate_scene_size_sq [((0 : ℚ), 0, 0), ((2 : ℚ), 0, 0)] =
      bbox_diag_sq [((0 : ℚ), 0, 0), ((2 : ℚ), 0, 0)] :=
  (scene_size_clamped _).2 (by simp)
    (by norm_num [bbox_diag_sq, listMinD, listMaxD, min_def, max_def])

/-- Counterexample to C4 as stated: a negative tolerance and a zero sample
count both return normally (no InvalidArgument-typed error), a positive
sample count of 1 fails (with ZeroDivisionError), and
`get_cross_section_points` on an empty point set returns an empty result
instead of raising. -/
theorem invalid_argument_cex :
    (calculate_profile [((0 : ℚ), 0, 0)] ((0 : ℚ), 0, 0) ((1 : ℚ), 0, 0) 100 (-1)).isOk
      = true ∧
    (calculate_profile [((0 : ℚ), 0, 0)] ((0 : ℚ), 0, 0) ((1 : ℚ), 0, 0) 0 1).isOk
      = true ∧
    (calculate_profile [((0 : ℚ), 0, 0)] ((0 : ℚ), 0, 0) ((1 : ℚ), 0, 0) 1 1).isOk
      = false ∧
    (get_cross_section_points [] ((0 : ℚ), 0, 0) ((1 : ℚ), 0, 0) 1).points = [] :=
  ⟨rfl, rfl, rfl, rfl⟩

/-- C4 amended: `calculate_profile` fails exactly when the point set is
empty, the line is degenerate (start = end), the sample count is negative
(ValueError from `np.linspace`), or the sample count is exactly 1
(ZeroDivisionError in the station loop); non-positive tolerances and a zero
sample count return normally, and `get_cross_section_points` never raises —
on an empty point set (or a line far from all points) it returns a
zero-point result. -/
theorem invalid_argument_characterization (points : List Pt3) (sp ep : Pt3)
    (N : ℤ) (tol : ℚ) :
    ((calculate_profile points sp ep N tol).isOk = false ↔
      (points = [] ∨ sp = ep ∨ N < 0 ∨ N = 1)) ∧
    (get_cross_section_points [] sp ep tol).points = [] := by
  constructor
  · unfold calculate_profile
    split_ifs with h1 h2 h3 h4
    · exact iff_of_true rfl (Or.inl h1)
    · exact iff_of_true rfl (Or.inr (Or.inl h2))
    · exact iff_of_true rfl (Or.inr (Or.inr (Or.inl h3)))
    · exact iff_of_true rfl (Or.inr (Or.inr (Or.inr h4)))
    · refine iff_of_false (by simp [Except.isOk, Except.toBool]) ?_
      rintro (hc | hc | hc | hc)
      · exact h1 hc
      · exact h2 hc
      · exact h3 hc
      · exact h4 hc
  · rfl

/-- Counterexample to C6 as stated: at the positive sample count N = 1 the
code raises ZeroDivisionError (`i / (num_samples - 1)` on the first
station) instead of returning exactly one sample. -/
theorem profile_sample_count_cex :
    calculate_profile [((0 : ℚ), 0, 0)] ((0 : ℚ), 0, 0) ((1 : ℚ), 0, 0) 1 1 =
      Except.error PyError.zeroDivisionError ∧
    (calculate_profile [((0 : ℚ), 0, 0)] ((0 : ℚ), 0, 0) ((1 : ℚ), 0, 0) 1 1).isOk
      = false :=
  ⟨rfl, rfl⟩

/-- C6 amended: for every nonempty point set, non-degenerate line and
sample count N ≥ 2 (N = 1 raises, see the counterexample),
`calculate_profile` returns exactly N samples whose distances — stored in
units of the line length ‖end − start‖ — are `distances[i] = i / (N - 1)`,
so `distances[0] = 0` and `distances[N-1] = 1` (i.e. the code's values are
0 and ‖end − start‖). -/
theorem profile_sample_count (points : List Pt3) (sp ep : Pt3) (N : ℤ) (tol : ℚ)
    (hne : points ≠ []) (hse : sp ≠ ep) (hN : 2 ≤ N) :
    (calculate_profile points sp ep N tol).isOk = true ∧
    profile_n (calculate_profile points sp ep N tol) = N.toNat ∧
    profile_dist (calculate_profile points sp ep N tol) 0 = 0 ∧
    profile_dist (calculate_profile points sp ep N tol) (N.toNat - 1) = 1 ∧
    ∀ i : ℕ, i < N.toNat →
      profile_dist (calculate_profile points sp ep N tol) i = (i : ℚ) / ((N : ℚ) - 1) := by
  have hn2 : 2 ≤ N.toNat := by omega
  have hcast : ((N.toNat : ℕ) : ℚ) = (N : ℚ) := by
    have h := Int.toNat_of_nonneg (by omega : (0 : ℤ) ≤ N)
    exact_mod_cast congrArg (Int.cast : ℤ → ℚ) h
  have hden : ((N : ℚ) - 1) ≠ 0 := by
    have h2 : (2 : ℚ) ≤ (N : ℚ) := by exact_mod_cast hN
    intro hc
    linarith
  have hdenN : ((N.toNat : ℕ) : ℚ) - 1 ≠ 0 := by rw [hcast]; exact hden
  unfold calculate_profile
  rw [if_neg hne, if_neg hse, if_neg (by omega), if_neg (by omega)]
  refine ⟨rfl, rfl, ?_, ?_, ?_⟩
  · simp only [profile_dist]
    rw [dif_pos (by omega : 0 < N.toNat)]
    show ((0 : ℕ) : ℚ) / ((N.toNat : ℚ) - 1) = 0
    rw [Nat.cast_zero, zero_div]
  · simp only [profile_dist]
    rw [dif_pos (by omega : N.toNat - 1 < N.toNat)]
    show ((N.toNat - 1 : ℕ) : ℚ) / ((N.toNat : ℚ) - 1) = 1
    rw [Nat.cast_sub (by omega : 1 ≤ N.toNat), Nat.cast_one]
    exact div_self hdenN
  · intro i hi
    simp only [profile_dist]
    rw [dif_pos hi]
    show ((i : ℕ) : ℚ) / ((N.toNat : ℚ) - 1) = (i : ℚ) / ((N : ℚ) - 1)
    rw [hcast]

/-- Witness for the amended C6 on a concrete 4-sample profile. -/
theorem profile_sample_count_witness :
    (calculate_profile [((0 : ℚ), 0, 0)] ((0 : ℚ), 0, 0) ((3 : ℚ), 0, 0) 4 1).isOk = true ∧
    profile_n (calculate_profile [((0 : ℚ), 0, 0)] ((0 : ℚ), 0, 0) ((3 : ℚ), 0, 0) 4 1) =
      (4 : ℤ).toNat ∧
    profile_dist (calculate_profile [((0 : ℚ), 0, 0)] ((0 : ℚ), 0, 0) ((3 : ℚ), 0, 0) 4 1)
      0 = 0 ∧
    profile_dist (calculate_profile [((0 : ℚ), 0, 0)] ((0 : ℚ), 0, 0) ((3 : ℚ), 0, 0) 4 1)
      ((4 : ℤ).toNat - 1) = 1 ∧
    ∀ i : ℕ, i < (4 : ℤ).toNat →
      profile_dist (calculate_profile [((0 : ℚ), 0, 0)] ((0 : ℚ), 0, 0) ((3 : ℚ), 0, 0) 4 1)
        i = (i : ℚ) / (((4 : ℤ) : ℚ) - 1) :=
  profile_sample_count [((0 : ℚ), 0, 0)] ((0 : ℚ), 0, 0) ((3 : ℚ), 0, 0) 4 1
    (by simp) (by decide) (by omega)

theorem mem_valid_idx {n : ℕ} {values : Fin n → Option ℚ} {i : Fin n} :
    i ∈ valid_idx n values ↔ (values i).isSome = true := by
  simp [valid_idx]

/-- C3 (Profile interpolation boundedness): for each height series
independently and for every station layout with strictly increasing
distances (as produced by `calculate_profile` for any neighbour outcome),
after `interpolate_missing_data` a station strictly between two stations
with data holds a value, while a station with no data at or before it —
or at or after it — stays "no data". -/
theorem profile_interpolation_boundedness (n : ℕ) (dists : Fin n → ℚ)
    (values : Fin n → Option ℚ) (hmono : StrictMono dists) (j : Fin n) :
    ((∃ i1, i1 < j ∧ (values i1).isSome = true) →
      (∃ i2, j < i2 ∧ (values i2).isSome = true) →
      (interpolate_missing_series n dists values j).isSome = true) ∧
    ((∀ i, i ≤ j → values i = none) → interpolate_missing_series n dists values j = none) ∧
    ((∀ i, j ≤ i → values i = none) → interpolate_missing_series n dists values j = none) := by
  refine ⟨?_, ?_, ?_⟩
  · rintro ⟨i1, hi1j, hi1⟩ ⟨i2, hji2, hi2⟩
    have hmem1 : i1 ∈ valid_idx n values := by simp [valid_idx, hi1]
    have hmem2 : i2 ∈ valid_idx n values := by simp [valid_idx, hi2]
    have hcard : ¬(valid_idx n values).card < 2 := by
      have h2 : 1 < (valid_idx n values).card :=
        Finset.one_lt_card.mpr ⟨i1, hmem1, i2, hmem2, by intro h; subst h; exact absurd hi1j (lt_asymm hji2)⟩
      omega
    unfold interpolate_missing_series
    rw [dif_neg hcard]
    cases hvj : values j with
    | some v => simp
    | none =>
      simp only
      have hminle : dists ((valid_idx n values).min' (Finset.card_pos.mp (by omega))) ≤ dists j := by
        apply le_of_lt
        apply hmono
        exact lt_of_le_of_lt (Finset.min'_le _ _ hmem1) hi1j
      have hmaxge : dists j ≤ dists ((valid_idx n values).max' (Finset.card_pos.mp (by omega))) := by
        apply le_of_lt
        apply hmono
        exact lt_of_lt_of_le hji2 (Finset.le_max' _ _ hmem2)
      rw [if_pos ⟨hminle, hmaxge⟩]
      simp
  · intro hbefore
    unfold interpolate_missing_series
    split_ifs with hcard
    · exact hbefore j (le_refl j)
    · simp only [hbefore j (le_refl j)]
      have hne : (valid_idx n values).Nonempty := Finset.card_pos.mp (by omega)
      have hjmin : j < (valid_idx n values).min' hne := by
        by_contra hc
        push_neg at hc
        have hmem := (valid_idx n values).min'_mem hne
        rw [mem_valid_idx] at hmem
        rw [hbefore _ hc] at hmem
        simp at hmem
      rw [if_neg]
      intro hcon
      exact absurd hcon.1 (not_le.mpr (hmono hjmin))
  · intro hafter
    unfold interpolate_missing_series
    split_ifs with hcard
    · exact hafter j (le_refl j)
    · simp only [hafter j (le_refl j)]
      have hne : (valid_idx n values).Nonempty := Finset.card_pos.mp (by omega)
      have hjmax : (valid_idx n values).max' hne < j := by
        by_contra hc
        push_neg at hc
        have hmem := (valid_idx n values).max'_mem hne
        rw [mem_valid_idx] at hmem
        rw [hafter _ hc] at hmem
        simp at hmem
      rw [if_neg]
      intro hcon
      exact absurd hcon.2 (not_le.mpr (hmono hjmax))

/-- Witness for C3: a three-station series with a gap in the middle. -/
theorem profile_interpolation_boundedness_witness :
    (interpolate_missing_series 3 (fun i : Fin 3 => (i : ℚ))
      (fun i : Fin 3 => if i = 1 then none else some ((i : ℚ) * 2)) 1).isSome = true :=
  (profile_interpolation_boundedness 3 (fun i : Fin 3 => (i : ℚ))
    (fun i : Fin 3 => if i = 1 then none else some ((i : ℚ) * 2)) (by decide) 1).1
    ⟨0, by decide, by decide⟩ ⟨2, by decide, by decide⟩

theorem mem_zip_map_self {α β : Type} {l : List α} {f : α → β} {pr : α × β}
    (h : pr ∈ l.zip (l.map f)) : pr.2 = f pr.1 := by
  induction l with
  | nil => simp at h
  | cons a as ih =>
    rw [List.map_cons, List.zip_cons_cons] at h
    rcases List.mem_cons.mp h with h | h
    · subst h; rfl
    · exact ih h

/-- C2 (Cross-section tolerance containment): every point included in a
cross-section result — by the direct per-point variant
`get_cross_section_points` and by the station-index variant
`_extract_cross_section_points` alike — has 2D perpendicular distance to
the segment ≤ tolerance (stated in exact squared form via `sqLeB`). -/
theorem cross_section_tolerance_containment (points : List Pt3) (sp ep : Pt3)
    (tol : ℚ) (hne : points ≠ []) (hse : sp ≠ ep) (htol : 0 ≤ tol) :
    (∀ p ∈ (get_cross_section_points points sp ep tol).points,
      sqLeB (point_to_line_distance_2d_sq p sp ep) tol = true) ∧
    (∀ p ∈ extract_cross_section_points points sp ep tol,
      sqLeB (point_to_line_distance_2d_sq p sp ep) tol = true) := by
  constructor
  · intro p hp
    unfold get_cross_section_points at hp
    rw [if_neg hne] at hp
    simp only at hp
    split_ifs at hp with hcsp
    · simp at hp
    all_goals
      obtain ⟨pr, hpr, hfst⟩ := List.mem_map.mp hp
      have hmemf := List.mem_filter.mp hpr
      have hsnd := mem_zip_map_self hmemf.1
      have hcond : sqLeB pr.2 tol = true := hmemf.2
      rw [← hfst, ← hsnd]
      exact hcond
  · intro p hp
    unfold extract_cross_section_points at hp
    have hcond := (List.mem_filter.mp hp).2
    refine sqLeB_mono ?_ hcond
    unfold nearest_sample_dist_sq
    apply le_listMinD
    · have hnum : 1 ≤ num_line_samples sp ep :=
        le_trans (by norm_num) (le_max_left 100 _)
      have hls := linspace01_ne_nil hnum
      simp only [interpolate_line_points, ne_eq, List.map_eq_nil_iff]
      exact hls
    · intro x hx
      obtain ⟨q2, hq2, hxval⟩ := List.mem_map.mp hx
      obtain ⟨q, hq, hq2eq⟩ := List.mem_map.mp hq2
      obtain ⟨t, ht0, ht1, hqt⟩ := mem_interpolate_line_points hq
      rw [← hxval, ← hq2eq, hqt]
      exact point_to_line_distance_2d_sq_le p sp ep t ht0 ht1

/-- Witness for C2: one point at horizontal distance 0 from the segment. -/
theorem cross_section_tolerance_containment_witness :
    (∀ p ∈ (get_cross_section_points [((0 : ℚ), 0, 1)] ((0 : ℚ), 0, 0)
        ((3 : ℚ), 0, 0) 1).points,
      sqLeB (point_to_line_distance_2d_sq p ((0 : ℚ), 0, 0) ((3 : ℚ), 0, 0)) 1 = true) ∧
    (∀ p ∈ extract_cross_section_points [((0 : ℚ), 0, 1)] ((0 : ℚ), 0, 0)
        ((3 : ℚ), 0, 0) 1,
      sqLeB (point_to_line_distance_2d_sq p ((0 : ℚ), 0, 0) ((3 : ℚ), 0, 0)) 1 = true) :=
  cross_section_tolerance_containment [((0 : ℚ), 0, 1)] ((0 : ℚ), 0, 0) ((3 : ℚ), 0, 0) 1
    (by simp) (by decide) (by norm_num)

/-- The clamped 2D projection point of the code's
`point_to_line_distance_2d`: `line_start + clip(proj_length, 0, L)·unit`,
written with the normalised parameter `t = clip(⟨pv,lv⟩/L², 0, 1)` (for a
zero-length 2D line the division is 0 and the point degenerates to
`line_start`, matching the code's early return). -/
def clamped_proj_point_2d (p sp ep : Pt3) : ℚ × ℚ :=
  let lvx := ep.1 - sp.1
  let lvy := ep.2.1 - sp.2.1
  let lenSq := lvx ^ 2 + lvy ^ 2
  let t := max 0 (min (((p.1 - sp.1) * lvx + (p.2.1 - sp.2.1) * lvy) / lenSq) 1)
  (sp.1 + t * lvx, sp.2.1 + t * lvy)

/-- The code's perpendicular distance is the 2D distance from the point to
the clamped projection point on the segment. -/
theorem point_to_line_distance_2d_sq_eq_proj (p sp ep : Pt3) :
    point_to_line_distance_2d_sq p sp ep =
      dist2_sq (xy p) (clamped_proj_point_2d p sp ep) := by
  unfold point_to_line_distance_2d_sq clamped_proj_point_2d dist2_sq xy
  by_cases hz : (ep.1 - sp.1) ^ 2 + (ep.2.1 - sp.2.1) ^ 2 = 0
  · rw [if_pos hz]
    simp only [hz, div_zero]
    rw [min_eq_left zero_le_one, max_self]
    ring
  · rw [if_neg hz]
    ring

theorem dist3_sq_ne_zero {sp ep : Pt3} (hse : sp ≠ ep) : dist3_sq sp ep ≠ 0 := by
  intro hc
  apply hse
  unfold dist3_sq at hc
  have h1 : ep.1 - sp.1 = 0 := by
    nlinarith [sq_nonneg (ep.1 - sp.1), sq_nonneg (ep.2.1 - sp.2.1), sq_nonneg (ep.2.2 - sp.2.2)]
  have h2 : ep.2.1 - sp.2.1 = 0 := by
    nlinarith [sq_nonneg (ep.1 - sp.1), sq_nonneg (ep.2.1 - sp.2.1), sq_nonneg (ep.2.2 - sp.2.2)]
  have h3 : ep.2.2 - sp.2.2 = 0 := by
    nlinarith [sq_nonneg (ep.1 - sp.1), sq_nonneg (ep.2.1 - sp.2.1), sq_nonneg (ep.2.2 - sp.2.2)]
  have e1 : sp.1 = ep.1 := by linarith
  have e2 : sp.2.1 = ep.2.1 := by linarith
  have e3 : sp.2.2 = ep.2.2 := by linarith
  exact Prod.ext e1 (Prod.ext e2 e3)

/-- Counterexample to C7 as stated: the point (2,0,0) lies past the end of
the unit segment from (0,0,0) to (1,0,0) but within tolerance 1 of it; the
code reports the raw (unclamped) scalar projection — length-scaled value 2,
i.e. distance-along-line 2 — whereas the claimed clamp to [0, length] would
give the scaled value 1. -/
theorem cross_section_line_distance_cex :
    (get_cross_section_points [((2 : ℚ), 0, 0)] ((0 : ℚ), 0, 0)
      ((1 : ℚ), 0, 0) 1).line_distances_scaled = [2] ∧
    clamped_projection_scaled ((2 : ℚ), 0, 0) ((0 : ℚ), 0, 0) ((1 : ℚ), 0, 0) = 1 ∧
    ((2 : ℚ)) ≠ 1 := by
  refine ⟨?_, ?_, by norm_num⟩
  · norm_num [get_cross_section_points, point_to_line_distance_2d_sq, dist2_sq,
      dist3_sq, xy, sqLeB, dot3_from_start, min_def, max_def, List.filter]
  · norm_num [clamped_projection_scaled, dist3_sq, dot3_from_start, min_def, max_def]

/-- C7 amended: for every point included in a `get_cross_section_points`
result, the reported distance along the line is the raw scalar projection
of (point − line_start) onto the unit line direction — NOT clamped to
[0, length], so points beyond the segment ends get values outside that
interval — while the reported perpendicular horizontal distance is the 2D
distance from the point to the clamped projection on the segment.  (Scaled
representation: `line_distances_scaled` stores length × the code's value,
i.e. the plain dot product; `perp_distances_sq` stores squared distances.) -/
theorem cross_section_line_distances (points : List Pt3) (sp ep : Pt3) (tol : ℚ)
    (hse : sp ≠ ep) (i : ℕ) (p : Pt3)
    (hp : (get_cross_section_points points sp ep tol).points[i]? = some p) :
    (get_cross_section_points points sp ep tol).line_distances_scaled[i]? =
      some (dot3_from_start p sp ep) ∧
    (get_cross_section_points points sp ep tol).perp_distances_sq[i]? =
      some (point_to_line_distance_2d_sq p sp ep) ∧
    point_to_line_distance_2d_sq p sp ep =
      dist2_sq (xy p) (clamped_proj_point_2d p sp ep) := by
  have hlen := dist3_sq_ne_zero hse
  unfold get_cross_section_points at hp ⊢
  by_cases hpts : points = []
  · rw [if_pos hpts] at hp
    simp at hp
  · rw [if_neg hpts] at hp ⊢
    simp only at hp ⊢
    split_ifs at hp ⊢ with hcsp
    · simp at hp
    · rw [List.getElem?_map] at hp
      cases hL : (List.filter (fun pr => sqLeB pr.2 tol)
          (points.zip (List.map (fun q => point_to_line_distance_2d_sq q sp ep)
            points)))[i]? with
      | none =>
        rw [hL] at hp
        exact absurd hp (by simp)
      | some pair =>
        rw [hL] at hp
        simp only [Option.map_some', Option.some.injEq] at hp
        have hmem : pair ∈ List.filter (fun pr => sqLeB pr.2 tol)
            (points.zip (List.map (fun q => point_to_line_distance_2d_sq q sp ep)
              points)) := List.getElem?_mem hL
        have hsnd := mem_zip_map_self (List.mem_filter.mp hmem).1
        refine ⟨?_, ?_, point_to_line_distance_2d_sq_eq_proj p sp ep⟩
        · rw [List.getElem?_map, List.getElem?_map, hL]
          simp only [Option.map_some', Option.some.injEq]
          rw [hp]
        · rw [List.getElem?_map, hL]
          simp only [Option.map_some', Option.some.injEq]
          rw [hsnd, hp]

/-- Witness for the amended C7 at the counterexample's concrete input. -/
theorem cross_section_line_distances_witness :
    (get_cross_section_points [((2 : ℚ), 0, 0)] ((0 : ℚ), 0, 0) ((1 : ℚ), 0, 0)
        1).line_distances_scaled[0]? =
      some (dot3_from_start ((2 : ℚ), 0, 0) ((0 : ℚ), 0, 0) ((1 : ℚ), 0, 0)) ∧
    (get_cross_section_points [((2 : ℚ), 0, 0)] ((0 : ℚ), 0, 0) ((1 : ℚ), 0, 0)
        1).perp_distances_sq[0]? =
      some (point_to_line_distance_2d_sq ((2 : ℚ), 0, 0) ((0 : ℚ), 0, 0)
        ((1 : ℚ), 0, 0)) ∧
    point_to_line_distance_2d_sq ((2 : ℚ), 0, 0) ((0 : ℚ), 0, 0) ((1 : ℚ), 0, 0) =
      dist2_sq (xy ((2 : ℚ), 0, 0))
        (clamped_proj_point_2d ((2 : ℚ), 0, 0) ((0 : ℚ), 0, 0) ((1 : ℚ), 0, 0)) :=
  cross_section_line_distances [((2 : ℚ), 0, 0)] ((0 : ℚ), 0, 0) ((1 : ℚ), 0, 0) 1
    (by decide) 0 ((2 : ℚ), 0, 0)
    (by norm_num [get_cross_section_points, point_to_line_distance_2d_sq, dist2_sq,
      dist3_sq, xy, sqLeB, dot3_from_start, min_def, max_def, List.filter])
